import Mathlib

/-!
Verification development for the real-estate map dashboard.

The repository is a client-side TypeScript/React application.  Its core logic
is shallowly embedded here:

* JavaScript runtime values (`JSValue`) and numbers (`JSNum`, with `nan` and
  signed infinities over exact rationals) model the dynamic semantics that the
  record normalizer `transformItemToProject` relies on (truthiness-based `||`
  fallbacks, `parseFloat`, `JSON.parse` inside `try`/`catch`).
* The typed data model (`Project`, `FilterState`, `PriceHistory`) mirrors the
  declared TypeScript interfaces; the derived-state engine (filtered project
  list, investor roster, province list), the selection-reconciliation effect,
  the upload handler and the chart coordinate mapper are translated from the
  source files.
-/

set_option maxHeartbeats 1000000

attribute [local semireducible] Rat.add Rat.sub Rat.mul Rat.inv

/-- A JavaScript number: `nan`, the two infinities, or a finite value.
Finite values are modelled as exact rationals. -/
inductive JSNum where
  | nan
  | inf
  | ninf
  | fin (q : ℚ)
  deriving DecidableEq, Repr

namespace JSNum

/-- JavaScript addition on numbers. -/
def add : JSNum → JSNum → JSNum
  | nan, _ => nan
  | _, nan => nan
  | inf, ninf => nan
  | ninf, inf => nan
  | inf, _ => inf
  | _, inf => inf
  | ninf, _ => ninf
  | _, ninf => ninf
  | fin a, fin b => fin (a + b)

/-- JavaScript negation on numbers. -/
def neg : JSNum → JSNum
  | nan => nan
  | inf => ninf
  | ninf => inf
  | fin a => fin (-a)

/-- JavaScript subtraction on numbers. -/
def sub (a b : JSNum) : JSNum := add a (neg b)

/-- JavaScript multiplication on numbers. -/
def mul : JSNum → JSNum → JSNum
  | nan, _ => nan
  | _, nan => nan
  | inf, inf => inf
  | inf, ninf => ninf
  | ninf, inf => ninf
  | ninf, ninf => inf
  | inf, fin b => if b = 0 then nan else if 0 < b then inf else ninf
  | fin a, inf => if a = 0 then nan else if 0 < a then inf else ninf
  | ninf, fin b => if b = 0 then nan else if 0 < b then ninf else inf
  | fin a, ninf => if a = 0 then nan else if 0 < a then ninf else inf
  | fin a, fin b => fin (a * b)

/-- JavaScript division on numbers. -/
def div : JSNum → JSNum → JSNum
  | nan, _ => nan
  | _, nan => nan
  | inf, inf => nan
  | inf, ninf => nan
  | ninf, inf => nan
  | ninf, ninf => nan
  | inf, fin b => if 0 ≤ b then inf else ninf
  | ninf, fin b => if 0 ≤ b then ninf else inf
  | fin _, inf => fin 0
  | fin _, ninf => fin 0
  | fin a, fin b =>
      if b = 0 then (if a = 0 then nan else if 0 < a then inf else ninf)
      else fin (a / b)

/-- `Math.min` on two numbers (`nan` absorbs). -/
def min2 : JSNum → JSNum → JSNum
  | nan, _ => nan
  | _, nan => nan
  | ninf, _ => ninf
  | _, ninf => ninf
  | inf, b => b
  | a, inf => a
  | fin a, fin b => if a ≤ b then fin a else fin b

/-- `Math.max` on two numbers (`nan` absorbs). -/
def max2 : JSNum → JSNum → JSNum
  | nan, _ => nan
  | _, nan => nan
  | inf, _ => inf
  | _, inf => inf
  | ninf, b => b
  | a, ninf => a
  | fin a, fin b => if a ≤ b then fin b else fin a

end JSNum

/-- A JavaScript runtime value, as far as the data pipeline of this program
needs: `undefined`, `null`, booleans, numbers, strings, objects (ordered
association lists of string keys) and arrays. -/
inductive JSValue where
  | undefined
  | null
  | bool (b : Bool)
  | num (n : JSNum)
  | str (s : String)
  | obj (fields : List (String × JSValue))
  | arr (elems : List JSValue)

namespace JSValue

/-- JavaScript truthiness: `undefined`, `null`, `false`, `0`, `NaN` and the
empty string are falsy; every object and array is truthy. -/
def truthy : JSValue → Bool
  | undefined => false
  | null => false
  | bool b => b
  | num .nan => false
  | num (.fin q) => q != 0
  | num _ => true
  | str s => s != ""
  | obj _ => true
  | arr _ => true

end JSValue

/-- The JavaScript `a || b` operator: `a` if truthy, otherwise `b`. -/
def jsOr (a b : JSValue) : JSValue := if a.truthy then a else b

/-- Property lookup `item.k` / `item["k"]`: the first binding of the key in an
object, `undefined` otherwise (including on non-objects). -/
def getField (v : JSValue) (k : String) : JSValue :=
  match v with
  | .obj fields =>
      match fields.find? (fun kv => kv.1 == k) with
      | some kv => kv.2
      | none => .undefined
  | _ => .undefined

/-- Whitespace skipped by `parseFloat` and `JSON.parse`. -/
def jsWhitespace (c : Char) : Bool :=
  c == ' ' || c == '\t' || c == '\n' || c == '\r' || c == '\x0c'

/-- Decimal digits to a natural number. -/
def natOfDigitsAux : List Char → Nat → Nat
  | [], acc => acc
  | c :: rest, acc => natOfDigitsAux rest (acc * 10 + (c.toNat - 48))

/-- Decimal digits to a natural number. -/
def natOfDigits (cs : List Char) : Nat := natOfDigitsAux cs 0

/-- Leading-prefix match on character lists (used by the substring check and
by `parseFloat`'s handling of `Infinity`). -/
def leadMatch : List Char → List Char → Bool
  | [], _ => true
  | _ :: _, [] => false
  | a :: as, b :: bs => a == b && leadMatch as bs

/-- The decimal-literal part of JavaScript `parseFloat` applied to a string:
skip leading whitespace, read an optional sign, then either `Infinity` or the
longest prefix of the form `digits [. digits] [e|E [sign] digits]`; if no
digit is read the result is `NaN`. -/
def parseFloatStr (s : String) : JSNum :=
  let cs := s.data.dropWhile jsWhitespace
  let signedTail : Bool × List Char :=
    match cs with
    | '-' :: r => (true, r)
    | '+' :: r => (false, r)
    | _ => (false, cs)
  let neg := signedTail.1
  let cs0 := signedTail.2
  if leadMatch "Infinity".data cs0 then (if neg then .ninf else .inf)
  else
    let ipSplit := cs0.span Char.isDigit
    let ip := ipSplit.1
    let fpSplit :=
      match ipSplit.2 with
      | '.' :: r => r.span Char.isDigit
      | other => ([], other)
    let fp := fpSplit.1
    if ip.isEmpty && fp.isEmpty then .nan
    else
      let expPart : Int :=
        match fpSplit.2 with
        | c :: r =>
          if c == 'e' || c == 'E' then
            match r with
            | '-' :: r2 =>
                let ed := (r2.span Char.isDigit).1
                if ed.isEmpty then 0 else -(natOfDigits ed : Int)
            | '+' :: r2 =>
                let ed := (r2.span Char.isDigit).1
                if ed.isEmpty then 0 else (natOfDigits ed : Int)
            | _ =>
                let ed := (r.span Char.isDigit).1
                if ed.isEmpty then 0 else (natOfDigits ed : Int)
          else 0
        | [] => 0
      let exp10 : Int := expPart - fp.length
      let signedMant : Int :=
        if neg then -(natOfDigits (ip ++ fp) : Int) else (natOfDigits (ip ++ fp) : Int)
      if 0 ≤ exp10 then .fin (Rat.ofInt (signedMant * (10 : Int) ^ exp10.toNat))
      else .fin (mkRat signedMant ((10 : Nat) ^ (-exp10).toNat))

/-- JavaScript `parseFloat` on an arbitrary value: the argument is converted
to a string first.  Numbers round-trip through their decimal printing; for an
array the string is the comma-joined rendering of its elements, so parsing
stops at the first comma and yields the parse of the first element; all other
non-strings render as words (`undefined`, `null`, `true`, `[object Object]`)
whose parse is `NaN`. -/
def parseFloatJS : JSValue → JSNum
  | .str s => parseFloatStr s
  | .num n => n
  | .arr [] => .nan
  | .arr (x :: _) => parseFloatJS x
  | _ => .nan

/-- Substring search over character lists (`String.prototype.includes`). -/
def tailContains (t : List Char) : List Char → Bool
  | [] => t.isEmpty
  | c :: rest => leadMatch t (c :: rest) || tailContains t rest

/-- JavaScript `s.includes(pat)`. -/
def containsStr (s pat : String) : Bool := tailContains pat.data s.data

/-- The field list produced by spreading a value into an object literal:
objects contribute their own fields, arrays and strings contribute
index-keyed entries, and primitives contribute nothing. -/
def toSpreadFields : JSValue → List (String × JSValue)
  | .obj fields => fields
  | .arr elems =>
      ((List.range elems.length).zip elems).map (fun iv => (toString iv.1, iv.2))
  | .str s =>
      ((List.range s.data.length).zip s.data).map
        (fun ic => (toString ic.1, .str (String.mk [ic.2])))
  | _ => []

/-- `{...a, ...b}` on field lists: keys of `a` in order (with values
overridden by `b` where present), then the keys of `b` not in `a`. -/
def objAssign (a b : List (String × JSValue)) : List (String × JSValue) :=
  (a.map (fun kv =>
    match b.find? (fun kv2 => kv2.1 == kv.1) with
    | some kv2 => (kv.1, kv2.2)
    | none => kv))
  ++ b.filter (fun kv2 => !(a.any (fun kv => kv.1 == kv2.1)))

/-- The object-literal spread merge `{...a, ...b}`. -/
def spreadMerge (a b : JSValue) : JSValue :=
  .obj (objAssign (toSpreadFields a) (toSpreadFields b))

/-- Body of a JSON string after the opening quote: returns the decoded
characters and the remainder after the closing quote.  `\u` escapes are kept
as the bare letter, an un-terminated string fails. -/
def jpStringBody : List Char → Option (List Char × List Char)
  | [] => none
  | '"' :: rest => some ([], rest)
  | '\\' :: c :: rest =>
      match jpStringBody rest with
      | some (s, r) =>
          let e : List Char :=
            match c with
            | 'n' => ['\n']
            | 't' => ['\t']
            | 'r' => ['\r']
            | '\\' => ['\\']
            | '"' => ['"']
            | '/' => ['/']
            | other => [other]
          some (e ++ s, r)
      | none => none
  | c :: rest =>
      match jpStringBody rest with
      | some (s, r) => some (c :: s, r)
      | none => none

/-- A JSON number literal: `-?digits[.digits][eE[+-]digits]`. -/
def jpNumber (cs : List Char) : Option (JSNum × List Char) :=
  let signedTail : Bool × List Char :=
    match cs with
    | '-' :: r => (true, r)
    | _ => (false, cs)
  let neg := signedTail.1
  let ipSplit := signedTail.2.span Char.isDigit
  if ipSplit.1.isEmpty then none
  else
    let fpSplit :=
      match ipSplit.2 with
      | '.' :: r => r.span Char.isDigit
      | other => ([], other)
    let afterExp : Option (Int × List Char) :=
      match fpSplit.2 with
      | 'e' :: '-' :: r => (let ed := r.span Char.isDigit
                            if ed.1.isEmpty then none
                            else some (-(natOfDigits ed.1 : Int), ed.2))
      | 'e' :: '+' :: r => (let ed := r.span Char.isDigit
                            if ed.1.isEmpty then none
                            else some ((natOfDigits ed.1 : Int), ed.2))
      | 'e' :: r => (let ed := r.span Char.isDigit
                     if ed.1.isEmpty then none
                     else some ((natOfDigits ed.1 : Int), ed.2))
      | 'E' :: '-' :: r => (let ed := r.span Char.isDigit
                            if ed.1.isEmpty then none
                            else some (-(natOfDigits ed.1 : Int), ed.2))
      | 'E' :: '+' :: r => (let ed := r.span Char.isDigit
                            if ed.1.isEmpty then none
                            else some ((natOfDigits ed.1 : Int), ed.2))
      | 'E' :: r => (let ed := r.span Char.isDigit
                     if ed.1.isEmpty then none
                     else some ((natOfDigits ed.1 : Int), ed.2))
      | other => some (0, other)
    match afterExp with
    | none => none
    | some (expPart, rest) =>
        let exp10 : Int := expPart - fpSplit.1.length
        let mant : Nat := natOfDigits (ipSplit.1 ++ fpSplit.1)
        let signedMant : Int := if neg then -(mant : Int) else (mant : Int)
        let q : ℚ :=
          if 0 ≤ exp10 then Rat.ofInt (signedMant * (10 : Int) ^ exp10.toNat)
          else mkRat signedMant ((10 : Nat) ^ (-exp10).toNat)
        some (.fin q, rest)

mutual

/-- Fueled JSON value parser (model of `JSON.parse`). -/
def jpValue : Nat → List Char → Option (JSValue × List Char)
  | 0, _ => none
  | n + 1, cs =>
    match cs.dropWhile jsWhitespace with
    | '\x7b' :: rest =>
        (match rest.dropWhile jsWhitespace with
         | '\x7d' :: r2 => some (.obj [], r2)
         | _ => match jpMembers n rest with
                | some (fields, r2) => some (.obj fields, r2)
                | none => none)
    | '[' :: rest =>
        (match rest.dropWhile jsWhitespace with
         | ']' :: r2 => some (.arr [], r2)
         | _ => match jpElems n rest with
                | some (elems, r2) => some (.arr elems, r2)
                | none => none)
    | '"' :: rest =>
        (match jpStringBody rest with
         | some (s, r) => some (.str (String.mk s), r)
         | none => none)
    | 't' :: 'r' :: 'u' :: 'e' :: rest => some (.bool true, rest)
    | 'f' :: 'a' :: 'l' :: 's' :: 'e' :: rest => some (.bool false, rest)
    | 'n' :: 'u' :: 'l' :: 'l' :: rest => some (.null, rest)
    | other =>
        (match jpNumber other with
         | some (q, rest) => some (.num q, rest)
         | none => none)

/-- Fueled parser for the members of a JSON object (after `{`). -/
def jpMembers : Nat → List Char → Option (List (String × JSValue) × List Char)
  | 0, _ => none
  | n + 1, cs =>
    match cs.dropWhile jsWhitespace with
    | '"' :: rest =>
        (match jpStringBody rest with
         | some (k, r1) =>
             (match r1.dropWhile jsWhitespace with
              | ':' :: r2 =>
                  (match jpValue n r2 with
                   | some (v, r3) =>
                       (match r3.dropWhile jsWhitespace with
                        | ',' :: r4 =>
                            (match jpMembers n r4 with
                             | some (fields, r5) => some ((String.mk k, v) :: fields, r5)
                             | none => none)
                        | '\x7d' :: r4 => some ([(String.mk k, v)], r4)
                        | _ => none)
                   | none => none)
              | _ => none)
         | none => none)
    | _ => none

/-- Fueled parser for the elements of a JSON array (after `[`). -/
def jpElems : Nat → List Char → Option (List JSValue × List Char)
  | 0, _ => none
  | n + 1, cs =>
    match jpValue n cs with
    | some (v, r1) =>
        (match r1.dropWhile jsWhitespace with
         | ',' :: r2 =>
             (match jpElems n r2 with
              | some (elems, r3) => some (v :: elems, r3)
              | none => none)
         | ']' :: r2 => some ([v], r2)
         | _ => none)
    | none => none

end

/-- Model of `JSON.parse`: `none` when a `SyntaxError` is thrown. -/
def jsonParse (s : String) : Option JSValue :=
  match jpValue (s.length + 1) s.data with
  | some (v, rest) => if (rest.dropWhile jsWhitespace).isEmpty then some v else none
  | none => none

/-- The canonical project record at JavaScript runtime level: the fields the
normalizer actually stores (the TypeScript annotation promises strings, but
the function can smuggle any truthy value through, so fields are `JSValue`). -/
structure ProjectJS where
  name : JSValue
  projectUrl : JSValue
  province : JSValue
  district : JSValue
  category : JSValue
  latitude : JSValue
  longitude : JSValue
  area : JSValue
  units : JSValue
  towers : JSValue
  investor : JSValue
  attributes : JSValue
  priceHistory : JSValue

/-- `item.attributes || {}` — the starting attributes value. -/
def baseAttributes (item : JSValue) : JSValue :=
  jsOr (getField item "attributes") (.obj [])

/-- `String.prototype.trim`: strip whitespace from both ends. -/
def trimChars (cs : List Char) : List Char :=
  ((cs.dropWhile jsWhitespace).reverse.dropWhile jsWhitespace).reverse

/-- `String.prototype.trim` as a string-level operation. -/
def trimStr (s : String) : String := String.mk (trimChars s.data)

/-- Whether a string starts with an opening brace (`startsWith('{')`). -/
def startsCurly (s : String) : Bool := leadMatch ['\x7b'] s.data

/-- The `Attributes (Other)` handling of `transformItemToProject`: a truthy
string that (after trimming) starts with a brace is `JSON.parse`d inside
`try`/`catch` and spread-merged on success; an object (or array — `typeof`
is `'object'`) is spread-merged directly; everything else leaves the base
attributes untouched. -/
def attributesOf (item : JSValue) : JSValue :=
  if (getField item "Attributes (Other)").truthy then
    match getField item "Attributes (Other)" with
    | .str s =>
        if startsCurly (trimStr s) then
          match jsonParse s with
          | some v => spreadMerge (baseAttributes item) v
          | none => baseAttributes item
        else baseAttributes item
    | .obj fields => spreadMerge (baseAttributes item) (.obj fields)
    | .arr elems => spreadMerge (baseAttributes item) (.arr elems)
    | _ => baseAttributes item
  else baseAttributes item

/-- A string field of the normalizer: `item[k1] || item[k2] || dflt`. -/
def strFieldOf (item : JSValue) (k1 k2 : String) (dflt : String) : JSValue :=
  jsOr (jsOr (getField item k1) (getField item k2)) (.str dflt)

/-- The coordinate guard `isNaN(x) ? null : x`. -/
def coordGuard : JSNum → JSValue
  | .nan => .null
  | n => .num n

/-- A coordinate of the normalizer: `parseFloat` of the chosen source value,
then the `isNaN` guard. -/
def coordOf (v : JSValue) : JSValue := coordGuard (parseFloatJS v)

/-- `transformItemToProject` from the app component: the robust normalizer
that converts any raw item (CSV row, legacy JSON, Vietnamese JSON) into one
canonical project record. -/
def transformItemToProject (item : JSValue) : ProjectJS where
  name := strFieldOf item "name" "Tên Dự Án" "N/A"
  projectUrl := strFieldOf item "projectUrl" "URL Dự Án" "#"
  province := strFieldOf item "province" "Cấp 2" "N/A"
  district := strFieldOf item "district" "Cấp 3" "N/A"
  category := strFieldOf item "category" "Cấp 4" "N/A"
  latitude :=
    coordOf (jsOr (jsOr (getField item "latitude") (getField item "Latitude"))
      (getField item "lat"))
  longitude :=
    coordOf (jsOr (jsOr (getField item "longitude") (getField item "Longitude"))
      (getField item "long"))
  area := strFieldOf item "area" "Diện tích" "N/A"
  units := strFieldOf item "units" "Số căn" "N/A"
  towers := strFieldOf item "towers" "Số tòa" "N/A"
  investor := strFieldOf item "investor" "Chủ đầu tư" "N/A"
  attributes := attributesOf item
  priceHistory := jsOr (getField item "priceHistory") .null

/-- The plot guard of `ProjectMarker` in the map component:
`if (!project.latitude || !project.longitude) return null` — the marker is
rendered only when both coordinates are truthy. -/
def shouldRenderMarker (p : ProjectJS) : Bool :=
  p.latitude.truthy && p.longitude.truthy

/-- `PriceHistory` from `types.ts`: aligned label and numeric series. -/
structure PriceHistory where
  labels : List String
  avg : List ℚ
  min : List ℚ
  max : List ℚ
  deriving DecidableEq, Repr

/-- `Project` from `types.ts`, at its declared TypeScript types: string
fields, nullable numeric coordinates, an ordered string→string attribute
mapping and an optional price history. -/
structure Project where
  name : String
  projectUrl : String
  province : String
  district : String
  category : String
  latitude : Option ℚ
  longitude : Option ℚ
  area : String
  units : String
  towers : String
  investor : String
  attributes : List (String × String)
  priceHistory : Option PriceHistory
  deriving DecidableEq, Repr

/-- The transient UI filter selection owned by the `App` component. -/
structure FilterState where
  selectedProvince : String
  selectedDistrict : String
  selectedInvestor : String
  showLabels : Bool
  minProjectsCount : Nat
  searchQuery : String
  investorSearchQuery : String
  deriving DecidableEq, Repr

/-- The bundled sample record set from `constants.ts`. -/
def projectData : List Project :=
  [{ name := "Eco Residence",
     projectUrl := "https://batdongsan.com.vn/du-an-nha-o-xa-hoi-bien-hoa-dna/eco-residence-pj6487",
     province := "Đồng Nai",
     district := "Biên Hòa",
     category := "Nhà ở xã hội Eco Residence",
     latitude := some (mkRat 10896613121032715 1000000000000000),
     longitude := some (mkRat 10685485076904297 100000000000000),
     area := "1,4 ha",
     units := "N/A",
     towers := "N/A",
     investor := "N/A",
     attributes := [("Số căn hộ", "1.098 căn")],
     priceHistory := none }]

/-- Model of `String.prototype.toLowerCase`, character-wise. -/
def lowerStr (s : String) : String := String.mk (s.data.map Char.toLower)

/-- The investor-name normalization used by the filter effect and the roster:
`project.investor && project.investor.trim() !== '' ? project.investor : 'N/A'`. -/
def normInvestor (inv : String) : String :=
  if inv != "" && trimStr inv != "" then inv else "N/A"

/-- The predicate of the filtered-projects effect in `App`: a record passes
when the geographic selections, the investor selection and both free-text
queries all match.  When the investor selection is `"All"` the
`minProjectsCount > 0` branch still leaves `investorMatch` at `true`. -/
def projectMatches (f : FilterState) (p : Project) : Bool :=
  let provinceMatch := f.selectedProvince == "All" || p.province == f.selectedProvince
  let districtMatch := f.selectedDistrict == "All" || p.district == f.selectedDistrict
  let projectInvestor := normInvestor p.investor
  let investorMatch :=
    if f.selectedInvestor != "All" then projectInvestor == f.selectedInvestor
    else true
  let searchMatch :=
    f.searchQuery == "" ||
      (p.name != "" && containsStr (lowerStr p.name) (lowerStr f.searchQuery))
  let investorSearchMatch :=
    f.investorSearchQuery == "" ||
      containsStr (lowerStr projectInvestor) (lowerStr f.investorSearchQuery)
  provinceMatch && districtMatch && investorMatch && searchMatch && investorSearchMatch

/-- The filtered project list (`setFilteredProjects` effect in `App`). -/
def filteredProjects (rs : List Project) (f : FilterState) : List Project :=
  rs.filter (projectMatches f)

/-- The five conditions of the specification, stated in the spec's own words:
province matches or the selection is `"All"`; district likewise; the
normalized investor equals the selection or the selection is `"All"` (no
minimum-count condition); each query is empty or contained
case-insensitively. -/
def specMatches (f : FilterState) (p : Project) : Bool :=
  (f.selectedProvince == "All" || p.province == f.selectedProvince) &&
  (f.selectedDistrict == "All" || p.district == f.selectedDistrict) &&
  (f.selectedInvestor == "All" || normInvestor p.investor == f.selectedInvestor) &&
  (f.searchQuery == "" || containsStr (lowerStr p.name) (lowerStr f.searchQuery)) &&
  (f.investorSearchQuery == "" ||
    containsStr (lowerStr (normInvestor p.investor)) (lowerStr f.investorSearchQuery))

/-- First-occurrence deduplication: the enumeration order of a JavaScript
object keyed by strings (and of `new Set(...)`) is insertion order. -/
def dedupKeepFirst (l : List String) : List String :=
  l.foldl (fun acc n => if n ∈ acc then acc else acc ++ [n]) []

/-- Geographic scoping shared by the roster (`relevantProjects`). -/
def geoMatches (f : FilterState) (p : Project) : Bool :=
  (f.selectedProvince == "All" || p.province == f.selectedProvince) &&
  (f.selectedDistrict == "All" || p.district == f.selectedDistrict)

/-- `investorsData` from `App`: group the geographically scoped records by
normalized investor name (a JavaScript count object enumerates its string
keys in insertion order, so its entries are the distinct names in
first-occurrence order with their total counts), keep the names whose count
reaches `minProjectsCount`, and sort by name. -/
def investorsData (rs : List Project) (f : FilterState) : List (String × Nat) :=
  let relevantProjects := rs.filter (geoMatches f)
  let names := relevantProjects.map (fun p => normInvestor p.investor)
  (((dedupKeepFirst names).map (fun n => (n, names.count n))).filter
      (fun e => f.minProjectsCount ≤ e.2)).mergeSort
    (fun a b => a.1 ≤ b.1)

/-- `provinces` from `App`:
`[...new Set(allProjects.map(p => p.province).filter(Boolean))].sort()`. -/
def provinces (rs : List Project) : List String :=
  (dedupKeepFirst ((rs.map (fun p => p.province)).filter (fun s => s != ""))).mergeSort
    (fun a b => a ≤ b)

/-- `resetFilters` from `App`: all six filter setters, and nothing else. -/
def resetFilters (f : FilterState) : FilterState :=
  { f with
    selectedProvince := "All"
    selectedDistrict := "All"
    selectedInvestor := "All"
    minProjectsCount := 0
    searchQuery := ""
    investorSearchQuery := "" }

/-- The part of the `App` component state the reconciliation invariant is
about: the record set and the filter selections. -/
structure AppState where
  allProjects : List Project
  filter : FilterState
  deriving DecidableEq, Repr

/-- The discrete UI events that update the filter state or the record set
(the callbacks passed down to `FilterPanel`, plus a successful upload). -/
inductive UIEvent where
  | provinceChange (p : String)
  | districtChange (d : String)
  | investorChange (i : String)
  | showLabelsChange (b : Bool)
  | minCountChange (n : Nat)
  | searchChange (q : String)
  | investorSearchChange (q : String)
  | uploadSuccess (ps : List Project)
  deriving Repr

/-- The state update performed by each callback (`handleProvinceChange` also
resets the district; a successful upload replaces the record set and runs
`resetFilters`). -/
def applyEvent (s : AppState) : UIEvent → AppState
  | .provinceChange p =>
      { s with filter := { s.filter with selectedProvince := p, selectedDistrict := "All" } }
  | .districtChange d => { s with filter := { s.filter with selectedDistrict := d } }
  | .investorChange i => { s with filter := { s.filter with selectedInvestor := i } }
  | .showLabelsChange b => { s with filter := { s.filter with showLabels := b } }
  | .minCountChange n => { s with filter := { s.filter with minProjectsCount := n } }
  | .searchChange q => { s with filter := { s.filter with searchQuery := q } }
  | .investorSearchChange q => { s with filter := { s.filter with investorSearchQuery := q } }
  | .uploadSuccess ps => { allProjects := ps, filter := resetFilters s.filter }

/-- The names in the current roster (`eligibleInvestorNames`). -/
def eligibleInvestorNames (s : AppState) : List String :=
  (investorsData s.allProjects s.filter).map (fun e => e.1)

/-- The reconciliation effect in `App`: if the selected investor is neither
`"All"` nor in the roster, reset the selection to `"All"`. -/
def reconcileApp (s : AppState) : AppState :=
  if s.filter.selectedInvestor != "All" &&
      !((eligibleInvestorNames s).contains s.filter.selectedInvestor) then
    { s with filter := { s.filter with selectedInvestor := "All" } }
  else s

/-- One update cycle: the event's setters run, then the render's effects. -/
def stepApp (s : AppState) (e : UIEvent) : AppState := reconcileApp (applyEvent s e)

/-- The initial component state: bundled sample data and default filters. -/
def initialAppState : AppState :=
  { allProjects := projectData,
    filter :=
      { selectedProvince := "All"
        selectedDistrict := "All"
        selectedInvestor := "All"
        showLabels := false
        minProjectsCount := 0
        searchQuery := ""
        investorSearchQuery := "" } }

/-- The outcome of reading and pre-parsing an uploaded file, as
`handleFileUpload` branches on it: a JSON file carries the outcome of
`JSON.parse` (exception message or value), a CSV file carries the rows and
the parser's error list, and the remaining cases are an unsupported
extension and a `FileReader` error. -/
inductive FileData where
  | jsonFile (parsed : Except String JSValue)
  | csvFile (rows : List JSValue) (errors : List (Nat × String))
  | unsupported
  | unreadable

/-- The slice of `App` state touched by `handleFileUpload`. -/
structure UploadState where
  allProjects : List ProjectJS
  uploadError : Option String
  filter : FilterState

/-- `handleFileUpload` from `App`: every failure path only sets the error
message; both success paths map the items through `transformItemToProject`,
replace the record set wholesale, reset the filters and leave the error
cleared. -/
def processUpload (fd : FileData) (s : UploadState) : UploadState :=
  match fd with
  | .jsonFile (.error e) => { s with uploadError := some e }
  | .jsonFile (.ok v) =>
      match v with
      | .arr items =>
          { allProjects := items.map transformItemToProject,
            uploadError := none,
            filter := resetFilters s.filter }
      | _ => { s with uploadError := some "Invalid JSON format. Expected an array of projects." }
  | .csvFile rows errors =>
      match errors with
      | [] =>
          { allProjects := rows.map transformItemToProject,
            uploadError := none,
            filter := resetFilters s.filter }
      | (r, m) :: _ =>
          { s with uploadError := some ("CSV parsing error on row " ++ toString r ++ ": " ++ m) }
  | .unsupported =>
      { s with uploadError := some "Unsupported file type. Please upload a .csv or .json file." }
  | .unreadable => { s with uploadError := some "Failed to read the file." }

/-- Whether `handleFileUpload` reaches `setAllProjects`. -/
def uploadSucceeds : FileData → Bool
  | .jsonFile (.ok (.arr _)) => true
  | .csvFile _ [] => true
  | _ => false

/-- The raw items a successful upload feeds to the normalizer. -/
def uploadItems : FileData → List JSValue
  | .jsonFile (.ok (.arr items)) => items
  | .csvFile rows _ => rows
  | _ => []

namespace PriceChart

/-- Canvas constants of `PriceChart`. -/
def width : ℚ := 500

/-- Canvas constants of `PriceChart`. -/
def height : ℚ := 300

/-- Canvas constants of `PriceChart`. -/
def padding : ℚ := 30

/-- `width - padding * 2`. -/
def chartWidth : ℚ := width - padding * 2

/-- `height - padding * 2`. -/
def chartHeight : ℚ := height - padding * 2

/-- `[...min, ...max, ...avg]` (the `null`/`undefined` filter is vacuous at
the declared type `number[]`). -/
def allValues (data : PriceHistory) : List ℚ := data.min ++ data.max ++ data.avg

/-- `Math.min(...allValues)` (`Infinity` on an empty spread). -/
def minOfValues (l : List ℚ) : JSNum :=
  l.foldl (fun acc v => JSNum.min2 acc (.fin v)) .inf

/-- `Math.max(...allValues)` (`-Infinity` on an empty spread). -/
def maxOfValues (l : List ℚ) : JSNum :=
  l.foldl (fun acc v => JSNum.max2 acc (.fin v)) .ninf

/-- `minValue = Math.min(...allValues) * 0.9`. -/
def minValue (data : PriceHistory) : JSNum :=
  JSNum.mul (minOfValues (allValues data)) (.fin (mkRat 9 10))

/-- `maxValue = Math.max(...allValues) * 1.1`. -/
def maxValue (data : PriceHistory) : JSNum :=
  JSNum.mul (maxOfValues (allValues data)) (.fin (mkRat 11 10))

/-- `range = maxValue - minValue`. -/
def range (data : PriceHistory) : JSNum :=
  JSNum.sub (maxValue data) (minValue data)

/-- `getX = (index) => padding + (index / (labels.length - 1)) * chartWidth`,
with JavaScript division (`0 / 0 = NaN`). -/
def getX (labels : List String) (index : Nat) : JSNum :=
  JSNum.add (.fin padding)
    (JSNum.mul
      (JSNum.div (.fin index) (JSNum.sub (.fin labels.length) (.fin 1)))
      (.fin chartWidth))

/-- `getY = (value) => height - padding - ((value - minValue) / range) * chartHeight`,
with JavaScript division (`0 / 0 = NaN`). -/
def getY (data : PriceHistory) (value : JSNum) : JSNum :=
  JSNum.sub (.fin (height - padding))
    (JSNum.mul (JSNum.div (JSNum.sub value (minValue data)) (range data))
      (.fin chartHeight))

end PriceChart

/-- What the specification promises of one normalized string field: it is
defined (neither `undefined` nor `null`), and when both its keys are
falsy it is the default literal. -/
def strFieldSpec (item : JSValue) (k1 k2 dflt : String) (v : JSValue) : Prop :=
  (v ≠ JSValue.undefined ∧ v ≠ JSValue.null) ∧
  ((getField item k1).truthy = false → (getField item k2).truthy = false →
    v = JSValue.str dflt)

/-- A concrete malformed item for exercising the hypotheses of the
normalizer theorem: the canonical URL keys are absent, the extra-attributes
payload is an unparsable brace-string, and the latitude sources fail to
parse. -/
def c2Item : JSValue :=
  .obj [("Tên Dự Án", .str "Khu A"),
        ("Attributes (Other)", .str "\x7bbad json"),
        ("latitude", .str "abc")]

/-- The item of the counterexample: the canonical key holds the string
`"0"`, an alias key holds `"5"`. -/
def c9Item : JSValue :=
  .obj [("latitude", .str "0"), ("Latitude", .str "5"), ("longitude", .str "3")]

/-- The same item with the canonical key really absent. -/
def c9ItemDropped : JSValue :=
  .obj [("Latitude", .str "5"), ("longitude", .str "3")]

/-- The witness item: numeric `0` under the canonical latitude key with a
truthy alias, and the string `"0"` under the canonical longitude key. -/
def c9WItem : JSValue :=
  .obj [("latitude", .num (.fin 0)), ("Latitude", .str "7"), ("longitude", .str "0")]

/-- The consistency invariant: the selected investor is `"All"` or a name
present in the current roster. -/
def investorSelectionValid (s : AppState) : Prop :=
  s.filter.selectedInvestor = "All" ∨
    s.filter.selectedInvestor ∈ eligibleInvestorNames s

/-- A concrete failing upload: a CSV whose parser reports an error on row 3
with message `"X"`, against a non-trivial in-memory state. -/
def c8State : UploadState :=
  { allProjects := [transformItemToProject (.obj [("name", .str "P1")])],
    uploadError := none,
    filter := initialAppState.filter }

/-- The failing CSV upload for the witness. -/
def c8File : FileData := .csvFile [] [(3, "X")]

/-- A concrete successful upload (a JSON array with one item) against a
state whose label flag is on and whose filters are all non-default. -/
def c10State : UploadState :=
  { allProjects := [],
    uploadError := none,
    filter :=
      { selectedProvince := "Đồng Nai"
        selectedDistrict := "Biên Hòa"
        selectedInvestor := "Eco Corp"
        showLabels := true
        minProjectsCount := 5
        searchQuery := "eco"
        investorSearchQuery := "corp" } }

/-- The successful JSON upload for the witness. -/
def c10File : FileData := .jsonFile (.ok (.arr [.obj [("name", .str "P2")]]))

/-- The all-zero flat series: the only way `range` can vanish on a flat
series, since `range = max*1.1 - min*0.9 = 0.2*v` for a series constant
at `v`. -/
def flatZeroHistory : PriceHistory :=
  { labels := ["2023", "2024"], avg := [0, 0], min := [0, 0], max := [0, 0] }

/-! ## General lemmas about the embedded JavaScript operations -/

theorem truthy_jsOr (a b : JSValue) (hb : b.truthy = true) : (jsOr a b).truthy = true := by
  unfold jsOr
  split_ifs with h
  · exact h
  · exact hb

theorem jsOr_of_not_truthy (a b : JSValue) (h : a.truthy = false) : jsOr a b = b := by
  unfold jsOr
  simp [h]

theorem truthy_defined {v : JSValue} (h : v.truthy = true) :
    v ≠ JSValue.undefined ∧ v ≠ JSValue.null := by
  constructor <;> rintro rfl <;> simp [JSValue.truthy] at h

/-- The two behaviours of the `isNaN` guard. -/
theorem coordGuard_cases (n : JSNum) :
    (n = .nan ∧ coordGuard n = .null) ∨ (n ≠ .nan ∧ coordGuard n = .num n) := by
  cases n
  · exact Or.inl ⟨rfl, rfl⟩
  · exact Or.inr ⟨by simp, rfl⟩
  · exact Or.inr ⟨by simp, rfl⟩
  · exact Or.inr ⟨by simp, rfl⟩


theorem strFieldOf_spec (item : JSValue) (k1 k2 dflt : String) (hd : dflt ≠ "") :
    strFieldSpec item k1 k2 dflt (strFieldOf item k1 k2 dflt) := by
  constructor
  · refine truthy_defined (truthy_jsOr _ _ ?_)
    simpa [JSValue.truthy] using hd
  · intro h1 h2
    unfold strFieldOf
    rw [jsOr_of_not_truthy _ _ h1, jsOr_of_not_truthy _ _ h2]

/-! ## Substring lemmas for `containsStr` -/

theorem leadMatch_self_append (t r : List Char) : leadMatch t (t ++ r) = true := by
  induction t with
  | nil => rfl
  | cons c cs ih => simp [leadMatch, ih]

theorem tailContains_cons {t l : List Char} (h : tailContains t l = true) (c : Char) :
    tailContains t (c :: l) = true := by
  unfold tailContains
  simp [h]

theorem tailContains_append_left {t l : List Char} (x : List Char)
    (h : tailContains t l = true) : tailContains t (x ++ l) = true := by
  induction x with
  | nil => exact h
  | cons c cs ih => exact tailContains_cons ih c

theorem tailContains_self_append (t r : List Char) : tailContains t (t ++ r) = true := by
  cases t with
  | nil => cases r <;> simp [tailContains, leadMatch]
  | cons c cs =>
      show tailContains (c :: cs) (c :: (cs ++ r)) = true
      unfold tailContains
      have : leadMatch (c :: cs) (c :: (cs ++ r)) = true := leadMatch_self_append (c :: cs) r
      simp [this]

/-- A string is found inside any concatenation that contains it contiguously. -/
theorem containsStr_concat (pre pat suf : String) :
    containsStr (pre ++ pat ++ suf) pat = true := by
  unfold containsStr
  simp only [String.data_append, List.append_assoc]
  exact tailContains_append_left _ (tailContains_self_append _ _)

/-- Variant with no suffix. -/
theorem containsStr_concat_right (pre pat : String) :
    containsStr (pre ++ pat) pat = true := by
  unfold containsStr
  simp only [String.data_append]
  refine tailContains_append_left _ ?_
  have h := tailContains_self_append pat.data []
  simpa using h

/-! ## The filtered project list (claim C1) -/

theorem lowerStr_empty_iff (s : String) : lowerStr s = "" ↔ s = "" := by
  cases s with
  | mk data =>
      cases data with
      | nil => simp [lowerStr]
      | cons c cs =>
          constructor
          · intro h
            exfalso
            have hdata := congrArg String.data h
            simp [lowerStr] at hdata
          · intro h
            exfalso
            have hdata := congrArg String.data h
            simp at hdata

theorem data_ne_nil_of_ne_empty {t : String} (ht : t ≠ "") : t.data ≠ [] := by
  intro h
  apply ht
  cases t with
  | mk data =>
      cases (show data = [] from h)
      rfl

theorem containsStr_empty_left {t : String} (ht : t ≠ "") : containsStr "" t = false := by
  cases hd : t.data with
  | nil => exact absurd hd (data_ne_nil_of_ne_empty ht)
  | cons c cs =>
      show tailContains t.data [] = false
      rw [hd]
      rfl

/-- Pointwise agreement of the implementation predicate with the
specification predicate. -/
theorem projectMatches_eq_specMatches (f : FilterState) (p : Project) :
    projectMatches f p = specMatches f p := by
  unfold projectMatches specMatches
  have hinv :
      (if f.selectedInvestor != "All" then normInvestor p.investor == f.selectedInvestor
       else true) =
      (f.selectedInvestor == "All" || normInvestor p.investor == f.selectedInvestor) := by
    cases h : f.selectedInvestor == "All" <;> simp [bne, h]
  have hsearch :
      (f.searchQuery == "" ||
        (p.name != "" && containsStr (lowerStr p.name) (lowerStr f.searchQuery))) =
      (f.searchQuery == "" || containsStr (lowerStr p.name) (lowerStr f.searchQuery)) := by
    cases hq : f.searchQuery == ""
    · simp only [Bool.false_or]
      cases hn : p.name == ""
      · have hn' : (p.name != "") = true := by simp [bne, hn]
        rw [hn', Bool.true_and]
      · have hn' : p.name = "" := by simpa using hn
        have hq' : f.searchQuery ≠ "" := by simpa using hq
        have hc : containsStr (lowerStr p.name) (lowerStr f.searchQuery) = false := by
          rw [hn']
          show containsStr "" (lowerStr f.searchQuery) = false
          exact containsStr_empty_left (fun h => hq' ((lowerStr_empty_iff _).mp h))
        have hn2 : (p.name != "") = false := by simp [bne, hn]
        rw [hc, hn2, Bool.false_and]
    · simp
  simp only [hinv, hsearch]

/-- C1: for every record set and filter state, the filtered project list is
exactly the input filtered by the five specification conditions (province,
district, investor — with no minimum-count condition when the selection is
`"All"` — and the two case-insensitive queries), each record passes iff it
satisfies them, and the output is a sublist of the input, i.e. the stable
input order is preserved and nothing is re-sorted. -/
theorem filtered_projects_spec (rs : List Project) (f : FilterState) :
    filteredProjects rs f = rs.filter (specMatches f) ∧
    (∀ p : Project, p ∈ filteredProjects rs f ↔ p ∈ rs ∧ specMatches f p = true) ∧
    (filteredProjects rs f).Sublist rs := by
  have hfun : projectMatches f = specMatches f := funext (projectMatches_eq_specMatches f)
  refine ⟨?_, ?_, ?_⟩
  · unfold filteredProjects
    rw [hfun]
  · intro p
    unfold filteredProjects
    rw [hfun, List.mem_filter]
  · unfold filteredProjects
    exact List.filter_sublist rs

/-! ## The record normalizer (claim C2) -/

theorem attributesOf_str_fail (item : JSValue) (s : String)
    (h : getField item "Attributes (Other)" = .str s)
    (hfail : startsCurly (trimStr s) = false ∨ jsonParse s = none) :
    attributesOf item = baseAttributes item := by
  unfold attributesOf
  rw [h]
  by_cases hs : s = ""
  · subst hs
    simp [JSValue.truthy]
  · have ht : (JSValue.str s).truthy = true := by simp [JSValue.truthy, hs]
    rw [ht]
    rcases hfail with hf | hf
    · simp [hf]
    · cases hsc : startsCurly (trimStr s) <;> simp [hsc, hf]

theorem attributesOf_num (item : JSValue) (n : JSNum)
    (h : getField item "Attributes (Other)" = .num n) :
    attributesOf item = baseAttributes item := by
  unfold attributesOf
  rw [h]
  split_ifs with ht
  · rfl
  · rfl

theorem attributesOf_bool (item : JSValue) (b : Bool)
    (h : getField item "Attributes (Other)" = .bool b) :
    attributesOf item = baseAttributes item := by
  unfold attributesOf
  rw [h]
  split_ifs with ht
  · rfl
  · rfl

/-- C2: the normalizer is a total function (it is a Lean `def`, so it can
never throw): on every raw item each of the nine string-like fields is
defined — never `undefined`, never `null` — and defaults to the `"N/A"`
sentinel (`"#"` for the URL) when both its keys are falsy; each coordinate is
either a number that is not `NaN` or the `null` absence marker, and it is
`null` exactly when `parseFloat` of the chosen source fails; a malformed
(unparsable) or non-mapping (string not starting with a brace, number,
boolean) extra-attributes payload is ignored, leaving the base attributes. -/
theorem normalizer_total_and_defined (item : JSValue) :
    strFieldSpec item "name" "Tên Dự Án" "N/A" (transformItemToProject item).name ∧
    strFieldSpec item "projectUrl" "URL Dự Án" "#" (transformItemToProject item).projectUrl ∧
    strFieldSpec item "province" "Cấp 2" "N/A" (transformItemToProject item).province ∧
    strFieldSpec item "district" "Cấp 3" "N/A" (transformItemToProject item).district ∧
    strFieldSpec item "category" "Cấp 4" "N/A" (transformItemToProject item).category ∧
    strFieldSpec item "area" "Diện tích" "N/A" (transformItemToProject item).area ∧
    strFieldSpec item "units" "Số căn" "N/A" (transformItemToProject item).units ∧
    strFieldSpec item "towers" "Số tòa" "N/A" (transformItemToProject item).towers ∧
    strFieldSpec item "investor" "Chủ đầu tư" "N/A" (transformItemToProject item).investor ∧
    ((transformItemToProject item).latitude = JSValue.null ∨
      ∃ n : JSNum, n ≠ JSNum.nan ∧ (transformItemToProject item).latitude = JSValue.num n) ∧
    ((transformItemToProject item).longitude = JSValue.null ∨
      ∃ n : JSNum, n ≠ JSNum.nan ∧ (transformItemToProject item).longitude = JSValue.num n) ∧
    (parseFloatJS (jsOr (jsOr (getField item "latitude") (getField item "Latitude"))
        (getField item "lat")) = JSNum.nan →
      (transformItemToProject item).latitude = JSValue.null) ∧
    (parseFloatJS (jsOr (jsOr (getField item "longitude") (getField item "Longitude"))
        (getField item "long")) = JSNum.nan →
      (transformItemToProject item).longitude = JSValue.null) ∧
    (∀ s : String, getField item "Attributes (Other)" = JSValue.str s →
      (startsCurly (trimStr s) = false ∨ jsonParse s = none) →
      (transformItemToProject item).attributes = baseAttributes item) ∧
    (∀ n : JSNum, getField item "Attributes (Other)" = JSValue.num n →
      (transformItemToProject item).attributes = baseAttributes item) ∧
    (∀ b : Bool, getField item "Attributes (Other)" = JSValue.bool b →
      (transformItemToProject item).attributes = baseAttributes item) := by
  refine ⟨strFieldOf_spec _ _ _ _ (by decide), strFieldOf_spec _ _ _ _ (by decide),
    strFieldOf_spec _ _ _ _ (by decide), strFieldOf_spec _ _ _ _ (by decide),
    strFieldOf_spec _ _ _ _ (by decide), strFieldOf_spec _ _ _ _ (by decide),
    strFieldOf_spec _ _ _ _ (by decide), strFieldOf_spec _ _ _ _ (by decide),
    strFieldOf_spec _ _ _ _ (by decide), ?_, ?_, ?_, ?_, ?_, ?_, ?_⟩
  · rcases coordGuard_cases (parseFloatJS (jsOr (jsOr (getField item "latitude")
      (getField item "Latitude")) (getField item "lat"))) with ⟨_, h2⟩ | ⟨h1, h2⟩
    · exact Or.inl h2
    · exact Or.inr ⟨_, h1, h2⟩
  · rcases coordGuard_cases (parseFloatJS (jsOr (jsOr (getField item "longitude")
      (getField item "Longitude")) (getField item "long"))) with ⟨_, h2⟩ | ⟨h1, h2⟩
    · exact Or.inl h2
    · exact Or.inr ⟨_, h1, h2⟩
  · intro h
    show coordGuard (parseFloatJS (jsOr (jsOr (getField item "latitude")
      (getField item "Latitude")) (getField item "lat"))) = JSValue.null
    rw [h]
    rfl
  · intro h
    show coordGuard (parseFloatJS (jsOr (jsOr (getField item "longitude")
      (getField item "Longitude")) (getField item "long"))) = JSValue.null
    rw [h]
    rfl
  · intro s h hf
    exact attributesOf_str_fail item s h hf
  · intro n h
    exact attributesOf_num item n h
  · intro b h
    exact attributesOf_bool item b h


theorem normalizer_total_and_defined_witness :
    (getField c2Item "projectUrl").truthy = false ∧
    (getField c2Item "URL Dự Án").truthy = false ∧
    (transformItemToProject c2Item).projectUrl = JSValue.str "#" ∧
    (transformItemToProject c2Item).latitude = JSValue.null ∧
    (transformItemToProject c2Item).attributes = baseAttributes c2Item := by
  refine ⟨rfl, rfl, ?_, ?_, ?_⟩
  · exact ((normalizer_total_and_defined c2Item).2.1).2 rfl rfl
  · exact (normalizer_total_and_defined c2Item).2.2.2.2.2.2.2.2.2.2.2.1 rfl
  · exact (normalizer_total_and_defined c2Item).2.2.2.2.2.2.2.2.2.2.2.2.2.1
      "\x7bbad json" rfl (Or.inr rfl)

/-! ## Zero coordinates and truthiness (claim C9) -/

theorem jsOr_of_truthy (a b : JSValue) (h : a.truthy = true) : jsOr a b = a := by
  unfold jsOr
  simp [h]



/-- C9 counterexample: a canonical-key string `"0"` is NOT treated as
absent — non-empty strings are truthy, so the normalizer keeps it and
parses it to the coordinate `0`, whereas an actually absent canonical key
falls through to the alias and yields `5`.  A zero coordinate therefore CAN
survive normalization from the canonical key (as the string `"0"`). -/
theorem canonical_string_zero_not_absent :
    (transformItemToProject c9Item).latitude = JSValue.num (.fin 0) ∧
    (transformItemToProject c9ItemDropped).latitude = JSValue.num (.fin 5) :=
  ⟨rfl, rfl⟩

/-- C9 (amended): a coordinate field holding the NUMBER `0` is falsy, so the
lookup falls through to the alias keys exactly as if the canonical key were
absent; the STRING `"0"`, however, is truthy, is kept, and parses to the
coordinate `0`; in either case any record whose latitude or longitude is `0`
(or `null`) fails the marker's truthiness guard and is never plotted. -/
theorem coordinate_zero_truthiness (item : JSValue) :
    (getField item "latitude" = JSValue.num (.fin 0) →
      (transformItemToProject item).latitude =
        coordOf (jsOr (getField item "Latitude") (getField item "lat"))) ∧
    (getField item "longitude" = JSValue.num (.fin 0) →
      (transformItemToProject item).longitude =
        coordOf (jsOr (getField item "Longitude") (getField item "long"))) ∧
    (getField item "latitude" = JSValue.str "0" →
      (transformItemToProject item).latitude = JSValue.num (.fin 0)) ∧
    (getField item "longitude" = JSValue.str "0" →
      (transformItemToProject item).longitude = JSValue.num (.fin 0)) ∧
    (∀ p : ProjectJS,
      (p.latitude = JSValue.num (.fin 0) ∨ p.longitude = JSValue.num (.fin 0) ∨
        p.latitude = JSValue.null ∨ p.longitude = JSValue.null) →
      shouldRenderMarker p = false) := by
  refine ⟨?_, ?_, ?_, ?_, ?_⟩
  · intro h
    show coordOf (jsOr (jsOr (getField item "latitude") (getField item "Latitude"))
      (getField item "lat")) = _
    rw [h, jsOr_of_not_truthy (JSValue.num (JSNum.fin 0)) (getField item "Latitude")
      (by decide)]
  · intro h
    show coordOf (jsOr (jsOr (getField item "longitude") (getField item "Longitude"))
      (getField item "long")) = _
    rw [h, jsOr_of_not_truthy (JSValue.num (JSNum.fin 0)) (getField item "Longitude")
      (by decide)]
  · intro h
    show coordOf (jsOr (jsOr (getField item "latitude") (getField item "Latitude"))
      (getField item "lat")) = _
    rw [h, jsOr_of_truthy (JSValue.str "0") (getField item "Latitude") (by decide),
      jsOr_of_truthy (JSValue.str "0") (getField item "lat") (by decide)]
    rfl
  · intro h
    show coordOf (jsOr (jsOr (getField item "longitude") (getField item "Longitude"))
      (getField item "long")) = _
    rw [h, jsOr_of_truthy (JSValue.str "0") (getField item "Longitude") (by decide),
      jsOr_of_truthy (JSValue.str "0") (getField item "long") (by decide)]
    rfl
  · intro p hp
    unfold shouldRenderMarker
    rcases hp with h | h | h | h <;> rw [h] <;> simp [JSValue.truthy]


theorem coordinate_zero_truthiness_witness :
    getField c9WItem "latitude" = JSValue.num (.fin 0) ∧
    (transformItemToProject c9WItem).latitude = JSValue.num (.fin 7) ∧
    getField c9WItem "longitude" = JSValue.str "0" ∧
    (transformItemToProject c9WItem).longitude = JSValue.num (.fin 0) ∧
    shouldRenderMarker (transformItemToProject c9WItem) = false := by
  refine ⟨rfl, ?_, rfl, ?_, ?_⟩
  · exact ((coordinate_zero_truthiness c9WItem).1 rfl).trans (by rfl)
  · exact (coordinate_zero_truthiness c9WItem).2.2.2.1 rfl
  · exact (coordinate_zero_truthiness c9WItem).2.2.2.2 (transformItemToProject c9WItem)
      (Or.inr (Or.inl ((coordinate_zero_truthiness c9WItem).2.2.2.1 rfl)))

/-! ## First-occurrence deduplication lemmas -/

theorem mem_dedupKeepFirst_aux (l : List String) :
    ∀ (acc : List String) (x : String),
      (x ∈ l.foldl (fun acc n => if n ∈ acc then acc else acc ++ [n]) acc) ↔
        (x ∈ acc ∨ x ∈ l) := by
  induction l with
  | nil =>
      intro acc x
      simp
  | cons n rest ih =>
      intro acc x
      rw [List.foldl_cons]
      by_cases h : n ∈ acc
      · rw [if_pos h, ih]
        constructor
        · rintro (hx | hx)
          · exact Or.inl hx
          · exact Or.inr (List.mem_cons_of_mem _ hx)
        · rintro (hx | hx)
          · exact Or.inl hx
          · rcases List.mem_cons.mp hx with rfl | hx2
            · exact Or.inl h
            · exact Or.inr hx2
      · rw [if_neg h, ih]
        constructor
        · rintro (hx | hx)
          · rcases List.mem_append.mp hx with hx2 | hx2
            · exact Or.inl hx2
            · simp only [List.mem_singleton] at hx2
              subst hx2
              exact Or.inr (List.mem_cons_self _ _)
          · exact Or.inr (List.mem_cons_of_mem _ hx)
        · rintro (hx | hx)
          · exact Or.inl (List.mem_append.mpr (Or.inl hx))
          · rcases List.mem_cons.mp hx with rfl | hx2
            · exact Or.inl (List.mem_append.mpr (Or.inr (by simp)))
            · exact Or.inr hx2

theorem mem_dedupKeepFirst (l : List String) (x : String) :
    x ∈ dedupKeepFirst l ↔ x ∈ l := by
  unfold dedupKeepFirst
  rw [mem_dedupKeepFirst_aux]
  simp

theorem nodup_dedupKeepFirst_aux (l : List String) :
    ∀ acc : List String, acc.Nodup →
      (l.foldl (fun acc n => if n ∈ acc then acc else acc ++ [n]) acc).Nodup := by
  induction l with
  | nil =>
      intro acc h
      simpa using h
  | cons n rest ih =>
      intro acc hacc
      rw [List.foldl_cons]
      by_cases h : n ∈ acc
      · rw [if_pos h]
        exact ih acc hacc
      · rw [if_neg h]
        refine ih _ ?_
        simp [List.nodup_append, hacc, h]

theorem nodup_dedupKeepFirst (l : List String) : (dedupKeepFirst l).Nodup := by
  unfold dedupKeepFirst
  exact nodup_dedupKeepFirst_aux l [] List.nodup_nil

/-! ## The investor roster (claim C3) -/

theorem mem_investorsData (rs : List Project) (f : FilterState) (name : String) (c : Nat) :
    (name, c) ∈ investorsData rs f ↔
      (name ∈ (rs.filter (geoMatches f)).map (fun p => normInvestor p.investor) ∧
       c = ((rs.filter (geoMatches f)).map (fun p => normInvestor p.investor)).count name ∧
       f.minProjectsCount ≤ c) := by
  unfold investorsData
  rw [List.mem_mergeSort, List.mem_filter]
  constructor
  · rintro ⟨hmem, hc⟩
    rcases List.mem_map.mp hmem with ⟨n, hn, heq⟩
    cases heq
    refine ⟨(mem_dedupKeepFirst _ _).mp hn, rfl, ?_⟩
    simpa using hc
  · rintro ⟨hname, hc, hT⟩
    refine ⟨List.mem_map.mpr ⟨name, (mem_dedupKeepFirst _ _).mpr hname, ?_⟩, ?_⟩
    · rw [hc]
    · simpa using hT

/-- C3: the roster contains exactly the pairs of a normalized investor name
occurring among the geographically scoped records and its exact occurrence
count, subject to the count reaching the minimum threshold; the roster is
insensitive to the selected investor and both search queries; and a larger
threshold never yields a longer roster. -/
theorem investors_roster_spec (rs : List Project) (f : FilterState) (i q iq : String)
    (T T' : Nat) (hT : T ≤ T') :
    (∀ name c, (name, c) ∈ investorsData rs f ↔
      (name ∈ (rs.filter (geoMatches f)).map (fun p => normInvestor p.investor) ∧
       c = ((rs.filter (geoMatches f)).map (fun p => normInvestor p.investor)).count name ∧
       f.minProjectsCount ≤ c)) ∧
    investorsData rs
        { f with selectedInvestor := i, searchQuery := q, investorSearchQuery := iq } =
      investorsData rs f ∧
    (investorsData rs { f with minProjectsCount := T' }).length ≤
      (investorsData rs { f with minProjectsCount := T }).length := by
  refine ⟨fun name c => mem_investorsData rs f name c, rfl, ?_⟩
  simp only [investorsData, geoMatches]
  rw [List.length_mergeSort, List.length_mergeSort]
  apply List.Sublist.length_le
  apply List.monotone_filter_right
  intro a ha
  simp only [decide_eq_true_eq] at ha ⊢
  exact le_trans hT ha

theorem investors_roster_spec_witness :
    1 ≤ 2 ∧
    (investorsData projectData
        { initialAppState.filter with minProjectsCount := 2 }).length ≤
      (investorsData projectData
        { initialAppState.filter with minProjectsCount := 1 }).length :=
  ⟨by decide,
    (investors_roster_spec projectData initialAppState.filter "All" "" "" 1 2
      (by decide)).2.2⟩

/-! ## The derived province list (claim C4) -/

/-- C4: the derived province list holds exactly the non-empty province
values occurring in the record set, without duplicates, sorted ascending in
the embedding's string order. -/
theorem provinces_spec (rs : List Project) :
    (∀ s : String, s ∈ provinces rs ↔ (s ∈ rs.map (fun p => p.province) ∧ s ≠ "")) ∧
    (provinces rs).Nodup ∧
    (provinces rs).Sorted (· ≤ ·) := by
  refine ⟨?_, ?_, ?_⟩
  · intro s
    unfold provinces
    rw [List.mem_mergeSort, mem_dedupKeepFirst, List.mem_filter]
    simp
  · unfold provinces
    exact (List.mergeSort_perm _ _).nodup_iff.mpr (nodup_dedupKeepFirst _)
  · unfold provinces
    exact List.sorted_mergeSort' _

/-! ## Selection reconciliation (claim C7) -/


theorem reconcileApp_establishes (s : AppState) :
    investorSelectionValid (reconcileApp s) := by
  unfold reconcileApp
  split_ifs with h
  · exact Or.inl rfl
  · have h2 : (s.filter.selectedInvestor != "All") = false ∨
        (!((eligibleInvestorNames s).contains s.filter.selectedInvestor)) = false := by
      rcases Bool.and_eq_false_iff.mp (Bool.not_eq_true _ |>.mp h) with h2 | h2
      · exact Or.inl h2
      · exact Or.inr h2
    rcases h2 with h2 | h2
    · exact Or.inl (by simpa [bne] using h2)
    · refine Or.inr ?_
      have h3 : (eligibleInvestorNames s).contains s.filter.selectedInvestor = true := by
        simpa using h2
      exact List.mem_of_elem_eq_true h3

/-- C7: after any finite sequence of UI events (filter changes, successful
uploads) starting from the initial component state, each update cycle ends
with the reconciliation effect, so the selected investor is always either
`"All"` or a member of the roster computed from the current record set and
filter. -/
theorem selected_investor_reconciled (events : List UIEvent) :
    investorSelectionValid (events.foldl stepApp initialAppState) := by
  have hrun : ∀ (es : List UIEvent) (s : AppState), investorSelectionValid s →
      investorSelectionValid (es.foldl stepApp s) := by
    intro es
    induction es with
    | nil => intro s hs; exact hs
    | cons e rest ih =>
        intro s hs
        exact ih (stepApp s e) (reconcileApp_establishes (applyEvent s e))
  exact hrun events initialAppState (Or.inl rfl)

/-! ## Upload failure atomicity (claim C8) -/

theorem strAppend_assoc (a b c : String) : a ++ b ++ c = a ++ (b ++ c) := by
  cases a with
  | mk x =>
      cases b with
      | mk y =>
          cases c with
          | mk z => exact congrArg String.mk (List.append_assoc x y z)

/-- C8: whenever processing an upload fails (thrown or non-array JSON, a CSV
parser row error, an unsupported file type, or an unreadable file), the
record set is left untouched and a single error message is set; for a CSV
row error the message contains the offending row number and the parser's
reason. -/
theorem upload_failure_atomic (s : UploadState) (fd : FileData)
    (h : uploadSucceeds fd = false) :
    (processUpload fd s).allProjects = s.allProjects ∧
    ∃ msg, (processUpload fd s).uploadError = some msg ∧
      ∀ (rows : List JSValue) (r : Nat) (m : String) (rest : List (Nat × String)),
        fd = FileData.csvFile rows ((r, m) :: rest) →
        (containsStr msg ("row " ++ toString r) = true ∧ containsStr msg m = true) := by
  cases fd with
  | jsonFile parsed =>
      cases parsed with
      | error e => exact ⟨rfl, e, rfl, fun _ _ _ _ heq => nomatch heq⟩
      | ok v =>
          cases v <;>
            first
              | exact ⟨rfl, _, rfl, fun _ _ _ _ heq => nomatch heq⟩
              | simp [uploadSucceeds] at h
  | csvFile rows errors =>
      cases errors with
      | nil => simp [uploadSucceeds] at h
      | cons head rest =>
          obtain ⟨r, m⟩ := head
          refine ⟨rfl, "CSV parsing error on row " ++ toString r ++ ": " ++ m, rfl, ?_⟩
          intro rows2 r2 m2 rest2 heq
          injection heq with h1 h2
          injection h2 with h3 h4
          have hr : r = r2 := ((Prod.mk.injEq _ _ _ _).mp h3).1
          have hm : m = m2 := ((Prod.mk.injEq _ _ _ _).mp h3).2
          subst hr
          subst hm
          constructor
          · rw [show ("CSV parsing error on row " ++ toString r ++ ": " ++ m : String) =
                "CSV parsing error on " ++ ("row " ++ toString r) ++ (": " ++ m) from by
              rw [show ("CSV parsing error on row " : String) =
                "CSV parsing error on " ++ "row " from rfl]
              rw [strAppend_assoc "CSV parsing error on " "row " (toString r)]
              rw [strAppend_assoc ("CSV parsing error on " ++ ("row " ++ toString r))
                ": " m]]
            exact containsStr_concat _ _ _
          · exact containsStr_concat_right _ m
  | unsupported => exact ⟨rfl, _, rfl, fun _ _ _ _ heq => nomatch heq⟩
  | unreadable => exact ⟨rfl, _, rfl, fun _ _ _ _ heq => nomatch heq⟩



theorem upload_failure_atomic_witness :
    uploadSucceeds c8File = false ∧
    ((processUpload c8File c8State).allProjects = c8State.allProjects ∧
      ∃ msg, (processUpload c8File c8State).uploadError = some msg ∧
        ∀ (rows : List JSValue) (r : Nat) (m : String) (rest : List (Nat × String)),
          c8File = FileData.csvFile rows ((r, m) :: rest) →
          (containsStr msg ("row " ++ toString r) = true ∧ containsStr msg m = true)) :=
  ⟨rfl, upload_failure_atomic c8State c8File rfl⟩

/-! ## Upload success resets the filters (claim C10) -/

/-- C10: a successful upload replaces the record set wholesale with the
normalized items and resets every filter field to its default — both
geographic selections and the investor selection to `"All"`, the threshold
to `0`, both queries to the empty string — while the label-visibility flag
is left unchanged. -/
theorem upload_success_resets_filters (s : UploadState) (fd : FileData)
    (h : uploadSucceeds fd = true) :
    (processUpload fd s).filter.selectedProvince = "All" ∧
    (processUpload fd s).filter.selectedDistrict = "All" ∧
    (processUpload fd s).filter.selectedInvestor = "All" ∧
    (processUpload fd s).filter.minProjectsCount = 0 ∧
    (processUpload fd s).filter.searchQuery = "" ∧
    (processUpload fd s).filter.investorSearchQuery = "" ∧
    (processUpload fd s).filter.showLabels = s.filter.showLabels ∧
    (processUpload fd s).allProjects = (uploadItems fd).map transformItemToProject := by
  cases fd with
  | jsonFile parsed =>
      cases parsed with
      | error e => simp [uploadSucceeds] at h
      | ok v =>
          cases v <;> try simp [uploadSucceeds] at h
          exact ⟨rfl, rfl, rfl, rfl, rfl, rfl, rfl, rfl⟩
  | csvFile rows errors =>
      cases errors with
      | nil => exact ⟨rfl, rfl, rfl, rfl, rfl, rfl, rfl, rfl⟩
      | cons head rest => simp [uploadSucceeds] at h
  | unsupported => simp [uploadSucceeds] at h
  | unreadable => simp [uploadSucceeds] at h



theorem upload_success_resets_filters_witness :
    uploadSucceeds c10File = true ∧
    ((processUpload c10File c10State).filter.selectedProvince = "All" ∧
      (processUpload c10File c10State).filter.selectedDistrict = "All" ∧
      (processUpload c10File c10State).filter.selectedInvestor = "All" ∧
      (processUpload c10File c10State).filter.minProjectsCount = 0 ∧
      (processUpload c10File c10State).filter.searchQuery = "" ∧
      (processUpload c10File c10State).filter.investorSearchQuery = "" ∧
      (processUpload c10File c10State).filter.showLabels = c10State.filter.showLabels ∧
      (processUpload c10File c10State).allProjects =
        (uploadItems c10File).map transformItemToProject) :=
  ⟨rfl, upload_success_resets_filters c10State c10File rfl⟩

/-! ## The chart X mapping at n = 1 (claim C5) -/

/-- C5 (evaluation at the failing input): the code has no divide-by-zero
guard — for a single-period series `index / (labels.length - 1)` is `0 / 0`,
which is `NaN`, so the point's X coordinate is `NaN` rather than the left
edge `padding`; the same holds for every one-label series. -/
theorem chart_getX_single_point_nan :
    PriceChart.getX ["2020"] 0 = JSNum.nan ∧
    JSNum.nan ≠ JSNum.fin PriceChart.padding ∧
    (∀ labels : List String, labels.length = 1 → PriceChart.getX labels 0 = JSNum.nan) := by
  refine ⟨by decide, by decide, ?_⟩
  intro labels h
  simp only [PriceChart.getX, h]
  decide

/-- The two-point sanity check of the X mapping: with n = 2 the formula
`padding + i/(n-1) * (width - 2*padding)` places the endpoints at the
chart edges. -/
theorem chart_getX_two_points :
    PriceChart.getX ["2020", "2021"] 0 = JSNum.fin PriceChart.padding ∧
    PriceChart.getX ["2020", "2021"] 1 =
      JSNum.fin (PriceChart.width - PriceChart.padding) := by decide

/-! ## The chart Y mapping on a flat-zero series (claim C6) -/


/-- C6 (evaluation at the failing input): on the flat all-zero series the
range is `0` and the code divides by it with no guard — `(v - minValue) /
range` is `0 / 0 = NaN` — so every point's Y is `NaN`, not the vertical
center `height / 2 = 150`. -/
theorem chart_getY_flat_zero_nan :
    PriceChart.range flatZeroHistory = JSNum.fin 0 ∧
    PriceChart.getY flatZeroHistory (JSNum.fin 0) = JSNum.nan ∧
    JSNum.nan ≠ JSNum.fin (PriceChart.height / 2) := by decide
